import Mathlib

/-!
Verification of the Takealot→Makro automation pipeline (`src/main.py`).

The program is embedded shallowly: Python floats become rationals (`ℚ`),
Python's banker's rounding becomes `pyround`, `int()` truncation becomes
`pyint`, the mutable engine state (`processed_plids`, destination listings)
becomes an explicit `RunState` threaded through the per-product step
function, and HTTP responses are abstracted by their status codes.
-/

namespace Makro

/-- Executable floor of a rational (agrees with `Int.floor`, see
`ratfloor_eq`); used so that concrete instances evaluate by `decide`. -/
def ratfloor (q : ℚ) : ℤ := q.num / (q.den : ℤ)

theorem ratfloor_eq (q : ℚ) : ratfloor q = ⌊q⌋ := Rat.floor_def.symm

/-- Python's built-in `round` to the nearest integer, rounding halves to the
even neighbour (banker's rounding). -/
def pyround (q : ℚ) : ℤ :=
  if q - ratfloor q < 1/2 then ratfloor q
  else if 1/2 < q - ratfloor q then ratfloor q + 1
  else if ratfloor q % 2 = 0 then ratfloor q else ratfloor q + 1

/-- Python's `int()` applied to a float: truncation toward zero. -/
def pyint (q : ℚ) : ℤ :=
  if 0 ≤ q then ratfloor q else -(ratfloor (-q))

/-- Python's `round(x, 2)`: banker's rounding at two decimal places. -/
def round2 (q : ℚ) : ℚ :=
  (pyround (q * 100) : ℚ) / 100

theorem pyround_intCast (k : ℤ) : pyround (k : ℚ) = k := by
  simp [pyround, ratfloor_eq]

theorem pyround_eq_of_lt (k : ℤ) (q : ℚ) (h1 : (k : ℚ) - 1/2 < q)
    (h2 : q < (k : ℚ) + 1/2) : pyround q = k := by
  unfold pyround
  simp only [ratfloor_eq]
  rcases le_or_lt (k : ℚ) q with hk | hk
  · have hfl : ⌊q⌋ = k := by
      rw [Int.floor_eq_iff]
      constructor
      · exact_mod_cast hk
      · linarith
    rw [hfl]
    rw [if_pos]
    linarith
  · have hfl : ⌊q⌋ = k - 1 := by
      rw [Int.floor_eq_iff]
      push_cast
      constructor
      · linarith
      · linarith
    rw [hfl]
    rw [if_neg, if_pos]
    · omega
    · push_cast
      linarith
    · push_cast
      intro hcon
      linarith

theorem pyround_le (q : ℚ) : (pyround q : ℚ) ≤ q + 1/2 := by
  have h1 : (⌊q⌋ : ℚ) ≤ q := Int.floor_le q
  have h2 : q < ⌊q⌋ + 1 := Int.lt_floor_add_one q
  unfold pyround
  simp only [ratfloor_eq]
  split
  · linarith
  · split
    · push_cast
      linarith
    · split
      · linarith
      · push_cast
        linarith

theorem le_pyround (q : ℚ) : q - 1/2 ≤ (pyround q : ℚ) := by
  have h1 : (⌊q⌋ : ℚ) ≤ q := Int.floor_le q
  have h2 : q < ⌊q⌋ + 1 := Int.lt_floor_add_one q
  unfold pyround
  simp only [ratfloor_eq]
  split
  · linarith
  · split
    · push_cast
      linarith
    · split
      · linarith
      · push_cast
        linarith

theorem pyint_of_nonneg (q : ℚ) (h : 0 ≤ q) : pyint q = ⌊q⌋ := by
  simp [pyint, h, ratfloor_eq]

end Makro

namespace Makro

/-! ## Fee & pricing engine (`ProfitCalculator`, src/main.py lines 66-176)

Money is embedded as `ℚ`.  The engine is only ever invoked with the default
category/weight/monthly-sales arguments (`calculate_optimal_price` calls
`calculate_makro_fees(attempt_price)`), but the full fee schedule is kept. -/

/-- `COMMISSION_RATES.get(category, 0.12)`: commission rate lookup with the
dict-get fallback of 12%. -/
def commission_rate (category : String) : ℚ :=
  if category = "appliances" then 1/10
  else if category = "electronics" then 2/25
  else if category = "home_garden" then 3/25
  else if category = "sports" then 3/25
  else if category = "toys" then 3/25
  else if category = "health_beauty" then 1/10
  else if category = "books" then 2/25
  else if category = "baby" then 1/10
  else 3/25

/-- `ProfitCalculator.estimate_transport_fee`: weight-bracket step function. -/
def estimate_transport_fee (weight_grams : ℚ) : ℚ :=
  if weight_grams ≤ 1000 then 35
  else if weight_grams ≤ 15000 then 50
  else if weight_grams ≤ 30000 then 75
  else if weight_grams ≤ 60000 then 100
  else if weight_grams ≤ 150000 then 135
  else 200

/-- `PLATFORM_FEE_MONTHLY = 230` (R230/month). -/
def PLATFORM_FEE_MONTHLY : ℚ := 230

/-- `MIN_PROFIT_MARGIN` default: `float(os.getenv(..., '0.15'))`. -/
def MIN_PROFIT_MARGIN : ℚ := 3/20

/-- The dict returned by `ProfitCalculator.calculate_makro_fees` (its
`breakdown` string field is presentation only and omitted). -/
structure Fees where
  commission : ℚ
  transport : ℚ
  platform_prorated : ℚ
  total : ℚ
  deriving Repr

/-- `ProfitCalculator.calculate_makro_fees`. -/
def calculate_makro_fees (selling_price : ℚ) (category : String := "default")
    (weight_grams : ℚ := 1000) (monthly_sales : ℚ := 30) : Fees :=
  let commission_fee := selling_price * commission_rate category
  let transport_fee := estimate_transport_fee weight_grams
  let platform_fee_per_product := PLATFORM_FEE_MONTHLY / max monthly_sales 1
  { commission := commission_fee
    transport := transport_fee
    platform_prorated := platform_fee_per_product
    total := commission_fee + transport_fee + platform_fee_per_product }

/-- The `for _ in range(10)` loop of `calculate_optimal_price`, as a recursion
on the remaining iteration count.  When the margin test succeeds the loop sets
`target_price = attempt_price` and breaks (so the current attempt is
returned); when the fuel runs out `target_price` still holds its initial
value `takealot_price * (1 + min_margin)`, which is what the Python loop
leaves behind because `target_price` is only reassigned inside the `if`. -/
def optimal_price_loop (takealot_price min_margin : ℚ) : ℕ → ℚ → ℚ
  | 0, _ => takealot_price * (1 + min_margin)
  | fuel + 1, attempt_price =>
    let fees := calculate_makro_fees attempt_price
    let net_profit := attempt_price - takealot_price - fees.total
    let actual_margin := if 0 < takealot_price then net_profit / takealot_price else 0
    if min_margin ≤ actual_margin then attempt_price
    else optimal_price_loop takealot_price min_margin fuel
      (takealot_price * (1 + min_margin) + fees.total)

/-- The charm-pricing tail of `ProfitCalculator.calculate_optimal_price`
(lines 162-170): sub-100 subtract 0.01 and round to cents; 100-999 go to
`int(..)+0.99`; at or above 1000 go to `int(../10)*10 + 9.99`. -/
def inline_charm (target_price : ℚ) : ℚ :=
  if target_price < 100 then round2 (target_price - 1/100)
  else if target_price < 1000 then ((pyint target_price : ℤ) : ℚ) + 99/100
  else ((pyint (target_price / 10) * 10 : ℤ) : ℚ) + 999/100

/-- `ProfitCalculator.calculate_optimal_price`: iterate at most 10 times from
the naive target, then apply the inline charm rounding.  The function returns
a bare price: there is no fee breakdown and no flag in its result. -/
def calculate_optimal_price (takealot_price : ℚ)
    (min_margin : ℚ := MIN_PROFIT_MARGIN) : ℚ :=
  inline_charm (optimal_price_loop takealot_price min_margin 10
    (takealot_price * (1 + min_margin)))

/-- The standalone `apply_charm_pricing` function (src/main.py lines 443-457)
used by `AutomationEngine.process_products`. -/
def apply_charm_pricing (price : ℚ) : ℚ :=
  if price < 100 then ((pyround (price - 1) : ℤ) : ℚ)
  else if price < 300 then ((pyround (price / 10) * 10 : ℤ) : ℚ) - 1
  else if price < 500 then ((pyround (price / 5) * 5 : ℤ) : ℚ) - 1/20
  else if price < 1000 then ((pyround (price / 10) * 10 : ℤ) : ℚ) - 1
  else if price < 2000 then ((pyround (price / 50) * 50 : ℤ) : ℚ) - 1
  else ((pyround (price / 100) * 100 : ℤ) : ℚ) - 1

/-- Realized margin after fees at a selling price, for a given cost:
`(selling - cost - fees(selling).total) / cost`. -/
def realized_margin (cost selling : ℚ) : ℚ :=
  (selling - cost - (calculate_makro_fees selling).total) / cost

end Makro

namespace Makro

/-- Along the orbit of the pricing loop the margin test always fails: as long
as the attempt price is below the fixed point `(25/22)*(c*(1+m) + 128/3)` of
the iteration (equivalently `22/25 * p < c*(1+m) + 128/3`), the realized
margin stays strictly below `m`, the loop therefore never breaks and falls
out of its fuel with `target_price` still equal to the naive
`c * (1 + m)`. -/
theorem optimal_price_loop_never_breaks (c m : ℚ) (hc : 0 < c) :
    ∀ fuel p, 22/25 * p < c * (1 + m) + 128/3 →
      optimal_price_loop c m fuel p = c * (1 + m) := by
  intro fuel
  induction fuel with
  | zero => intro p _; rfl
  | succ n ih =>
    intro p hp
    show (let fees := calculate_makro_fees p
      let net_profit := p - c - fees.total
      let actual_margin := if 0 < c then net_profit / c else 0
      if m ≤ actual_margin then p
      else optimal_price_loop c m n (c * (1 + m) + fees.total)) = c * (1 + m)
    have htot : (calculate_makro_fees p).total = p * (3/25) + 35 + 230/30 := rfl
    have hmargin : (p - c - (calculate_makro_fees p).total) / c < m := by
      rw [div_lt_iff₀ hc, htot]
      nlinarith [hp, hc]
    rw [htot] at hmargin
    simp only [htot, if_pos hc, if_neg (not_le.mpr hmargin)]
    apply ih
    nlinarith [hp]

/-- Closed form of `ProfitCalculator.calculate_optimal_price` for every
positive cost and nonnegative minimum margin: the iteration never reaches the
margin condition, so the function returns the charm-rounded *naive* target
`c * (1 + m)`, silently. -/
theorem calculate_optimal_price_closed_form (c m : ℚ) (hc : 0 < c)
    (hm : 0 ≤ m) :
    calculate_optimal_price c m = inline_charm (c * (1 + m)) := by
  unfold calculate_optimal_price
  rw [optimal_price_loop_never_breaks c m hc 10 (c * (1 + m))
    (by nlinarith [hc, hm, mul_nonneg hc.le hm])]

end Makro

namespace Makro

/-! ## Destination client (`MakroAPI`, src/main.py lines 585-699) and the
module-level configuration constants (lines 436-441). -/

/-- `TARGET_CATEGORY = 'Air Fryers'`. -/
def TARGET_CATEGORY : String := "Air Fryers"

/-- `MARKUP_MULTIPLIER = 2.8`. -/
def MARKUP_MULTIPLIER : ℚ := 14/5

/-- `MAX_PRODUCTS_PER_RUN = 10`. -/
def MAX_PRODUCTS_PER_RUN : ℕ := 10

/-- `MIN_PRICE_FOR_CHEAP_PRODUCTS = 450`. -/
def MIN_PRICE_FOR_CHEAP_PRODUCTS : ℚ := 450

/-- `MAX_RETRY_ATTEMPTS` default: `int(os.getenv(..., '3'))`. -/
def MAX_RETRY_ATTEMPTS : ℕ := 3

/-- `RETRY_DELAY` default: `int(os.getenv(..., '5'))` seconds. -/
def RETRY_DELAY : ℕ := 5

/-- A listing as read back from the Makro `listings` endpoint;
`check_duplicate` reads `listing.get('model_id', '')`, so an absent
`model_id` field is the empty string. -/
structure Listing where
  title : String
  model_id : String
  deriving Repr, DecidableEq

/-- `MakroAPI.check_duplicate`: some existing listing has the same
lowercased title, or — only when a truthy (non-`None`, nonempty)
`model_id` was passed — the same lowercased `model_id`. -/
def check_duplicate (listings : List Listing) (title : String)
    (model_id : Option String) : Bool :=
  listings.any fun l =>
    (l.title.toLower == title.toLower) ||
      (match model_id with
       | some m => !(m == "") && (l.model_id.toLower == m.toLower)
       | none => false)

/-- `MakroAPI.get_fsn_from_category`: `category_map.get(name, '3310')` over
the one-entry map `{'Air Fryers': '3310'}`. -/
def get_fsn_from_category (category_name : String) : String :=
  if category_name = "Air Fryers" then "3310" else "3310"

/-- The observable outcome of `MakroAPI.create_listing` as a function of the
HTTP status code: the parsed body on 200/201 and `None` for every other
status — a 302 redirect included — with all exceptions swallowed into
`None`.  No error value distinguishes a redirect from any other failure,
and nothing is raised. -/
def create_listing_result (status_code : ℕ) (body : String) : Option String :=
  if status_code = 200 ∨ status_code = 201 then some body else none

/-- How the f-string `f'TA-{...}'` renders the scraped `plid`, which is
always present in the product dict but may be `None`. -/
def plid_str : Option String → String
  | some s => s
  | none => "None"

/-- The candidate SKU `f'TA-{plid}-{int(time.time())}'` built in
`process_products` (line 764): the wall-clock seconds are baked into the
idempotency key. -/
def make_sku (plid : Option String) (now : ℕ) : String :=
  "TA-" ++ plid_str plid ++ "-" ++ toString now

/-- The `listing_data` dict assembled by `process_products` (lines 757-767);
`description` falls back to the title when the detail scrape found none. -/
structure ListingData where
  fsn : String
  title : String
  description : String
  mrp : ℚ
  selling_price : ℚ
  sku : String
  brand : String
  hsn : String
  deriving Repr, DecidableEq

/-- Assembling `listing_data` for a product at wall-clock time `now`. -/
def build_listing_data (title : String) (plid : Option String)
    (description : String) (makro_price : ℚ) (now : ℕ) : ListingData :=
  { fsn := get_fsn_from_category TARGET_CATEGORY
    title := title
    description := description
    mrp := makro_price
    selling_price := makro_price
    sku := make_sku plid now
    brand := "Generic"
    hsn := "" }

end Makro

namespace Makro

/-! ## Retry handler (`RetryHandler.retry_with_backoff`, lines 179-195)

Modelled as a fuel recursion over the remaining entries of
`range(max_attempts)`.  The function under retry is abstracted as
`f : ℕ → Except String α` giving the outcome of the call at each (0-based)
attempt index; the result records how many calls were made, which backoff
waits `RETRY_DELAY * 2**attempt` were slept, and the final outcome (the
exception of the last attempt is re-raised). -/

def retry_loop (f : ℕ → Except String α) : ℕ → ℕ → ℕ × List ℕ × Except String α
  | _, 0 => (0, [], Except.error "range exhausted")
  | attempt, rem + 1 =>
    match f attempt with
    | Except.ok a => (1, [], Except.ok a)
    | Except.error e =>
      if rem = 0 then (1, [], Except.error e)
      else
        let r := retry_loop f (attempt + 1) rem
        (r.1 + 1, (RETRY_DELAY * 2 ^ attempt) :: r.2.1, r.2.2)

/-- `RetryHandler.retry_with_backoff(func, max_attempts=MAX_RETRY_ATTEMPTS)`. -/
def retry_with_backoff (f : ℕ → Except String α)
    (max_attempts : ℕ := MAX_RETRY_ATTEMPTS) : ℕ × List ℕ × Except String α :=
  retry_loop f 0 max_attempts

/-! ## Orchestrator (`AutomationEngine.process_products`, lines 701-800)

The engine's persistent state (`self.processed_plids`, the destination's
listing set as seen by `check_duplicate`, and instrumentation logs of the
create calls made and the listings created) is a `RunState`.  The HTTP
status the destination returns for a product's create call is the oracle
`status : Product → ℕ` — fixed across runs, which is the claims'
"unchanged destination state" reading. -/

/-- A scraped Takealot product (`search_products` result dict); `plid` may be
`None` when the href has no slash. -/
structure Product where
  title : String
  price : ℚ
  rating : ℚ
  plid : Option String
  deriving Repr, DecidableEq

/-- The engine + destination state threaded through a run.
`created_log`/`attempt_log` are instrumentation: one entry (newest first)
per created listing resp. per `create_listing` call. -/
structure RunState where
  processed_plids : List (Option String)
  listings : List Listing
  created_log : List (Option String × String × ℚ)
  attempt_log : List (Option String × String)
  created_count : ℕ
  skipped_count : ℕ
  deriving Repr, DecidableEq

/-- The pricing step of `process_products` (lines 743-751): the minimum-price
rule for cheap products, then the plain markup. -/
def pipeline_base_price (takealot_price : ℚ) : ℚ :=
  if takealot_price < 200 then
    max MIN_PRICE_FOR_CHEAP_PRODUCTS (takealot_price * MARKUP_MULTIPLIER)
  else takealot_price * MARKUP_MULTIPLIER

/-- One iteration of the `for product in products` loop of
`process_products`: skip when the plid was already processed; else skip (and
remember the plid) when `check_duplicate` fires; else price the product and
call `create_listing`, and on success record the listing, remember the plid
and bump `created_count`. -/
def step (status : Product → ℕ) (s : RunState) (p : Product) : RunState :=
  if p.plid ∈ s.processed_plids then
    { s with skipped_count := s.skipped_count + 1 }
  else if check_duplicate s.listings p.title p.plid then
    { s with skipped_count := s.skipped_count + 1
             processed_plids := p.plid :: s.processed_plids }
  else if (create_listing_result (status p) p.title).isSome then
    { s with
      attempt_log := (p.plid, p.title) :: s.attempt_log
      listings := ⟨p.title, ""⟩ :: s.listings
      created_log := (p.plid, p.title,
        apply_charm_pricing (pipeline_base_price p.price)) :: s.created_log
      created_count := s.created_count + 1
      processed_plids := p.plid :: s.processed_plids }
  else { s with attempt_log := (p.plid, p.title) :: s.attempt_log }

/-- The product loop with its early exit
`if created_count >= MAX_PRODUCTS_PER_RUN: break`. -/
def run_loop (status : Product → ℕ) (s : RunState) : List Product → RunState
  | [] => s
  | p :: rest =>
    let s1 := step status s p
    if MAX_PRODUCTS_PER_RUN ≤ s1.created_count then s1
    else run_loop status s1 rest

/-- One call of `AutomationEngine.process_products` over the scraped product
list: the per-run counters start at zero, everything else persists. -/
def process_products (status : Product → ℕ) (products : List Product)
    (s : RunState) : RunState :=
  run_loop status { s with created_count := 0, skipped_count := 0 } products

end Makro

namespace Makro

/-! ## Shared concrete inputs for the claim theorems -/

/-- An initial engine/destination state: nothing processed, no listings. -/
def state0 : RunState := ⟨[], [], [], [], 0, 0⟩

/-- A scraped product at the price-floor example price R150. -/
def sample150 : Product := ⟨"AirFryer", 150, 9/2, some "PL150"⟩

/-- An invalid candidate: empty title and source price 0. -/
def zeroProduct : Product := ⟨"", 0, 0, some "P0"⟩

/-- An ordinary candidate used for the 503 scenario. -/
def gadget : Product := ⟨"Gadget", 500, 4, some "P1"⟩

/-- All calls of an always-failing function raise; the retry loop then makes
exactly one call per element of `range(max_attempts)` and re-raises the last
exception. -/
theorem retry_loop_error_count (f : ℕ → Except String α) (e : String)
    (hf : ∀ k, f k = Except.error e) :
    ∀ n, 1 ≤ n → ∀ a,
      (retry_loop f a n).1 = n ∧ (retry_loop f a n).2.2 = Except.error e := by
  intro n
  induction n with
  | zero => omega
  | succ m ih =>
    intro _ a
    cases m with
    | zero => simp [retry_loop, hf a]
    | succ k =>
      obtain ⟨h21, h22⟩ := ih (by omega) (a + 1)
      simp only [retry_loop, hf, Nat.succ_ne_zero, if_false] at h21 h22 ⊢
      constructor
      · omega
      · exact h22

end Makro

namespace Makro

/-! ## Claim C2 -/

/-- On the default category the commission lookup falls through to 12%. -/
theorem commission_rate_default : commission_rate "default" = 3/25 := rfl

/-- Claim C2 (status: code_bug).  The spec requires the idempotency key (the
candidate SKU) to be derived from the source identifier alone; the code bakes
`int(time.time())` into it, so the same candidate priced at two different
wall-clock seconds gets two different SKUs — a retried create can therefore
not reuse its key.  Concretely: plid `12345` at times 1000 and 1001. -/
theorem c2_sku_embeds_wall_clock_time :
    (build_listing_data "Air Fryer X" (some "12345") "d" 450 1000).sku
      = "TA-12345-1000" ∧
    (build_listing_data "Air Fryer X" (some "12345") "d" 450 1000).sku
      ≠ (build_listing_data "Air Fryer X" (some "12345") "d" 450 1001).sku := by
  constructor
  · rfl
  · decide

/-! ## Claim C3 -/

/-- Claim C3 (status: code_bug).  At cost 100 under the default schedule the
10-iteration fixed-point loop never satisfies the margin test (the realized
margin approaches 0.15 strictly from below), and on cap exhaustion the code
returns the charm-rounded *initial naive* target 115.99 — whose realized
margin after fees is negative, far below `MIN_PROFIT_MARGIN` — as a bare
number: there is no `margin_not_guaranteed` flag, no breakdown, no best
price found.  The claimed "margin ≥ threshold unless flagged" is violated
silently. -/
theorem c3_margin_shortfall_unflagged :
    calculate_optimal_price 100 = 11599/100 ∧
    realized_margin 100 (11599/100) < MIN_PROFIT_MARGIN := by
  constructor
  · rw [show MIN_PROFIT_MARGIN = 3/20 from rfl,
      calculate_optimal_price_closed_form 100 (3/20) (by norm_num) (by norm_num)]
    norm_num [inline_charm, pyint, ratfloor_eq]
  · norm_num [realized_margin, calculate_makro_fees, commission_rate_default,
      estimate_transport_fee, PLATFORM_FEE_MONTHLY, MIN_PROFIT_MARGIN]

/-! ## Claim C4 -/

/-- Claim C4, counterexample.  For the R150 product the pre-fee target is
indeed `max(450, 420) = 450`, but the published price is
`apply_charm_pricing 450 = 449.95`, which is strictly below the floor 450 —
the claimed `computed_price ≥ 450` is false. -/
theorem c4_final_price_below_450 :
    pipeline_base_price 150 = 450 ∧
    (process_products (fun _ => 200) [sample150] state0).created_log
      = [(some "PL150", "AirFryer", 44995/100)] ∧
    (44995/100 : ℚ) < 450 := by
  refine ⟨?_, ?_, by norm_num⟩
  · norm_num [pipeline_base_price, MIN_PRICE_FOR_CHEAP_PRODUCTS,
      MARKUP_MULTIPLIER]
  · norm_num [process_products, run_loop, step, sample150, state0,
      check_duplicate, pipeline_base_price, apply_charm_pricing,
      pyround, ratfloor_eq, create_listing_result, MAX_PRODUCTS_PER_RUN,
      MIN_PRICE_FOR_CHEAP_PRODUCTS, MARKUP_MULTIPLIER]

/-- Claim C4 (status: corrected).  Amended claim: the price-floor rule makes
the pre-fee target `max(450, 150*2.8) = 450`, and the published price is the
charm rounding of that floor, `449.95` — within one charm step (0.05) of the
floor and at least 449, but *not* at least 450, because `apply_charm_pricing`
rounds 450 down into the `.95` bucket. -/
theorem c4_floor_then_charm_gives_449_95 :
    pipeline_base_price 150
      = max MIN_PRICE_FOR_CHEAP_PRODUCTS (150 * MARKUP_MULTIPLIER) ∧
    max MIN_PRICE_FOR_CHEAP_PRODUCTS ((150 : ℚ) * MARKUP_MULTIPLIER) = 450 ∧
    apply_charm_pricing 450 = 44995/100 ∧
    (process_products (fun _ => 200) [sample150] state0).created_log
      = [(some "PL150", "AirFryer", 44995/100)] ∧
    (449 : ℚ) ≤ 44995/100 := by
  refine ⟨?_, ?_, ?_, ?_, by norm_num⟩
  · norm_num [pipeline_base_price]
  · norm_num [MIN_PRICE_FOR_CHEAP_PRODUCTS, MARKUP_MULTIPLIER]
  · norm_num [apply_charm_pricing, pyround, ratfloor_eq]
  · norm_num [process_products, run_loop, step, sample150, state0,
      check_duplicate, pipeline_base_price, apply_charm_pricing,
      pyround, ratfloor_eq, create_listing_result, MAX_PRODUCTS_PER_RUN,
      MIN_PRICE_FOR_CHEAP_PRODUCTS, MARKUP_MULTIPLIER]

end Makro

namespace Makro

/-! ## Claim C5 -/

/-- Claim C5, counterexample.  At cost 200 (default schedule, margin 0.15)
the final — charm-rounded — price returned by the pricing engine has a
realized margin below the threshold, and nothing is flagged: the function
returns a bare number, so the claimed "rounding only after verification and
re-verified afterwards, widening a bucket if needed" is false. -/
theorem c5_final_price_fails_margin_unflagged :
    realized_margin 200 (calculate_optimal_price 200) < MIN_PROFIT_MARGIN := by
  rw [show MIN_PROFIT_MARGIN = 3/20 from rfl,
    calculate_optimal_price_closed_form 200 (3/20) (by norm_num) (by norm_num)]
  norm_num [realized_margin, calculate_makro_fees, commission_rate_default,
    estimate_transport_fee, PLATFORM_FEE_MONTHLY, inline_charm, pyint,
    ratfloor_eq]

/-- Claim C5 (status: corrected).  Amended claim: for every positive cost and
nonnegative minimum margin, the margin condition of the 10-step loop never
holds along its orbit, so `calculate_optimal_price` applies the charm
rounding to the *unverified* naive target `cost * (1 + margin)`; there is no
post-rounding re-verification, no bucket widening and no flag — the rounded
price is returned unconditionally. -/
theorem c5_charm_applied_to_unverified_target (c m : ℚ) (hc : 0 < c)
    (hm : 0 ≤ m) :
    calculate_optimal_price c m = inline_charm (c * (1 + m)) :=
  calculate_optimal_price_closed_form c m hc hm

/-- Witness for C5 at cost 200, margin 0.15. -/
theorem c5_witness :
    (0 : ℚ) < 200 ∧ (0 : ℚ) ≤ 3/20 ∧
    calculate_optimal_price 200 (3/20) = inline_charm (200 * (1 + 3/20)) :=
  ⟨by norm_num, by norm_num,
    c5_charm_applied_to_unverified_target 200 (3/20) (by norm_num) (by norm_num)⟩

/-! ## Claim C7 -/

/-- Claim C7, counterexample.  A 302 redirect answer to the create call is
not distinguished in any way: `create_listing` returns the same generic
`None` as for a 503, and raises nothing — there is no `RedirectBlocked`
error in the program, so the claim that one is raised is false. -/
theorem c7_redirect_same_as_server_error :
    create_listing_result 302 "created" = none ∧
    create_listing_result 302 "created" = create_listing_result 503 "created" := by
  constructor <;> simp [create_listing_result]

/-- Claim C7 (status: corrected).  Amended claim: a redirect response is
indeed never treated as success and `create_listing` itself performs no
retry, but instead of raising a dedicated `RedirectBlocked` error the client
returns the generic failure `None` for *every* non-200/201 status, the 302
included — a redirect is indistinguishable from any other failure. -/
theorem c7_non_success_returns_generic_none (status_code : ℕ) (body : String)
    (h200 : status_code ≠ 200) (h201 : status_code ≠ 201) :
    create_listing_result status_code body = none := by
  simp [create_listing_result, h200, h201]

/-- Witness for C7 at status 302. -/
theorem c7_witness :
    (302 : ℕ) ≠ 200 ∧ (302 : ℕ) ≠ 201 ∧
    create_listing_result 302 "created" = none :=
  ⟨by decide, by decide,
    c7_non_success_returns_generic_none 302 "created" (by decide) (by decide)⟩

/-! ## Claim C8 -/

/-- Claim C8, counterexample.  With a destination that always answers 503,
one pipeline pass makes exactly one create attempt for the candidate — not
`MAX_RETRY_ATTEMPTS = 3` — and records nothing: `process_products` never
routes `create_listing` through `RetryHandler.retry_with_backoff`, and no
FAILED state or `last_error` field exists in the program. -/
theorem c8_single_attempt_per_run_on_503 :
    (process_products (fun _ => 503) [gadget] state0).attempt_log.length = 1 ∧
    (1 : ℕ) ≠ MAX_RETRY_ATTEMPTS ∧
    (process_products (fun _ => 503) [gadget] state0).created_log = [] := by
  refine ⟨?_, by decide, ?_⟩ <;>
    norm_num [process_products, run_loop, step, gadget, state0,
      check_duplicate, create_listing_result, MAX_PRODUCTS_PER_RUN]

/-- Claim C8 (status: corrected).  Amended claim: the retry bound the spec
states holds of `RetryHandler.retry_with_backoff` in isolation — an
always-raising call is attempted exactly `max_attempts` times, with
exponential backoff `RETRY_DELAY * 2**attempt` (for the default 3 attempts
the waits are 5s and 10s), and the last exception is re-raised — but the
pipeline never uses the handler: an always-503 create is attempted exactly
once per run and the candidate is left unrecorded. -/
theorem c8_retry_bound_holds_only_in_unused_handler
    (f : ℕ → Except String Unit) (e : String)
    (hf : ∀ k, f k = Except.error e) (n : ℕ) (hn : 1 ≤ n) :
    (retry_with_backoff f n).1 = n ∧
    (retry_with_backoff f n).2.2 = Except.error e ∧
    retry_with_backoff (fun _ => (Except.error "503" : Except String Unit))
      = (3, [5, 10], Except.error "503") ∧
    (process_products (fun _ => 503) [gadget] state0).attempt_log.length = 1 := by
  obtain ⟨h1, h2⟩ := retry_loop_error_count f e hf n hn 0
  refine ⟨h1, h2, rfl, ?_⟩
  norm_num [process_products, run_loop, step, gadget, state0,
    check_duplicate, create_listing_result, MAX_PRODUCTS_PER_RUN]

/-- Witness for C8: the always-503 call at the default 3 attempts. -/
theorem c8_witness :
    (∀ k : ℕ, (fun _ : ℕ => (Except.error "503" : Except String Unit)) k
        = Except.error "503") ∧
    (1 : ℕ) ≤ 3 ∧
    (retry_with_backoff
        (fun _ : ℕ => (Except.error "503" : Except String Unit)) 3).1 = 3 :=
  ⟨fun _ => rfl, by decide,
    (c8_retry_bound_holds_only_in_unused_handler
      (fun _ => Except.error "503") "503" (fun _ => rfl) 3 (by decide)).1⟩

/-! ## Claim C9 -/

/-- Claim C9, counterexample.  A candidate with source price 0 and an empty
title is *not* rejected: from a fresh state the pipeline prices it through
the floor rule and calls `create_listing` for it (and, the destination
accepting, creates the listing at R449.95).  No FAILED / `INVALID_INPUT`
bookkeeping exists anywhere in `process_products`. -/
theorem c9_zero_price_create_called :
    (process_products (fun _ => 200) [zeroProduct] state0).attempt_log
      = [(some "P0", "")] ∧
    (process_products (fun _ => 200) [zeroProduct] state0).created_log
      = [(some "P0", "", 44995/100)] := by
  constructor <;>
    norm_num [process_products, run_loop, step, zeroProduct, state0,
      check_duplicate, pipeline_base_price, apply_charm_pricing,
      pyround, ratfloor_eq, create_listing_result, MAX_PRODUCTS_PER_RUN,
      MIN_PRICE_FOR_CHEAP_PRODUCTS, MARKUP_MULTIPLIER]

/-- Claim C9 (status: corrected).  Amended claim: `process_products`
validates neither source price nor title: *every* candidate with
non-positive price that passes the processed/duplicate checks — from a fresh
state, any such candidate — gets a create call, priced by the cheap-product
rule `max(450, price * 2.8)` followed by charm rounding; it never transitions
to a FAILED/INVALID_INPUT state (none exists). -/
theorem c9_invalid_candidate_still_published (p : Product)
    (hprice : p.price ≤ 0) :
    (process_products (fun _ => 200) [p] state0).attempt_log
      = [(p.plid, p.title)] ∧
    (process_products (fun _ => 200) [p] state0).created_log
      = [(p.plid, p.title,
          apply_charm_pricing
            (max MIN_PRICE_FOR_CHEAP_PRODUCTS (p.price * MARKUP_MULTIPLIER)))] := by
  have hlt : p.price < 200 := lt_of_le_of_lt hprice (by norm_num)
  constructor <;>
    simp [process_products, run_loop, step, state0, check_duplicate,
      pipeline_base_price, create_listing_result, MAX_PRODUCTS_PER_RUN,
      if_pos hlt]

/-- Witness for C9 at the zero-price empty-title candidate. -/
theorem c9_witness :
    zeroProduct.price ≤ 0 ∧
    (process_products (fun _ => 200) [zeroProduct] state0).attempt_log
      = [(zeroProduct.plid, zeroProduct.title)] :=
  ⟨by norm_num [zeroProduct],
    (c9_invalid_candidate_still_published zeroProduct
      (by norm_num [zeroProduct])).1⟩

end Makro

namespace Makro

/-! ## Claim C6 -/

/-- Branch of `apply_charm_pricing` on `[1000, 2000)`. -/
theorem apply_charm_eq_of_1000_le_lt (x : ℚ) (h1 : 1000 ≤ x) (h2 : x < 2000) :
    apply_charm_pricing x = ((pyround (x / 50) * 50 : ℤ) : ℚ) - 1 := by
  unfold apply_charm_pricing
  rw [if_neg (by linarith), if_neg (by linarith), if_neg (by linarith),
    if_neg (by linarith), if_pos h2]

/-- Branch of `apply_charm_pricing` on `[2000, ∞)`. -/
theorem apply_charm_eq_of_2000_le (x : ℚ) (h : 2000 ≤ x) :
    apply_charm_pricing x = ((pyround (x / 100) * 100 : ℤ) : ℚ) - 1 := by
  unfold apply_charm_pricing
  rw [if_neg (by linarith), if_neg (by linarith), if_neg (by linarith),
    if_neg (by linarith), if_neg (by linarith)]

/-- Claim C6, counterexample.  `apply_charm_pricing` is not idempotent: below
100 every application subtracts a further rand — `round_charm(50) = 49` but
`round_charm(round_charm(50)) = 48`. -/
theorem c6_not_idempotent_below_100 :
    apply_charm_pricing 50 = 49 ∧
    apply_charm_pricing (apply_charm_pricing 50) = 48 ∧
    (48 : ℚ) ≠ 49 := by
  refine ⟨?_, ?_, by norm_num⟩ <;>
    norm_num [apply_charm_pricing, pyround, ratfloor_eq]

/-- Claim C6 (status: corrected).  Amended claim: charm rounding is *not*
idempotent in general — on prices below 100 it subtracts 1 on every
application (see the counterexample), and at the bucket boundaries (e.g.
100, 300, 500) the rounded value drops into the next lower bucket and moves
again — but it is idempotent on every price of at least 1000: there
`round_charm(round_charm(x)) = round_charm(x)`. -/
theorem c6_charm_idempotent_from_1000 (x : ℚ) (hx : 1000 ≤ x) :
    apply_charm_pricing (apply_charm_pricing x) = apply_charm_pricing x := by
  rcases lt_or_le x 2000 with h2 | h2
  · have hb1 : (pyround (x / 50) : ℚ) ≤ x / 50 + 1/2 := pyround_le _
    have hb2 : x / 50 - 1/2 ≤ (pyround (x / 50) : ℚ) := le_pyround _
    have hx50 : (20 : ℚ) ≤ x / 50 := by linarith
    have hx50' : x / 50 < 40 := by linarith
    have hk20 : 20 ≤ pyround (x / 50) := by
      have h' : (19 : ℤ) < pyround (x / 50) := by
        have : (19 : ℚ) < (pyround (x / 50) : ℚ) := by linarith
        exact_mod_cast this
      omega
    have hk40 : pyround (x / 50) ≤ 40 := by
      have h' : pyround (x / 50) < 41 := by
        have : (pyround (x / 50) : ℚ) < 41 := by linarith
        exact_mod_cast this
      omega
    rw [apply_charm_eq_of_1000_le_lt x hx h2]
    rcases eq_or_lt_of_le hk20 with heq | hgt
    · have hval : ((pyround (x / 50) * 50 : ℤ) : ℚ) - 1 = 999 := by
        rw [← heq]; norm_num
      rw [hval]
      norm_num [apply_charm_pricing, pyround, ratfloor_eq]
    · have hk21 : (21 : ℚ) ≤ (pyround (x / 50) : ℚ) := by exact_mod_cast hgt
      have hk40' : (pyround (x / 50) : ℚ) ≤ 40 := by exact_mod_cast hk40
      have hr1 : (1000 : ℚ) ≤ ((pyround (x / 50) * 50 : ℤ) : ℚ) - 1 := by
        push_cast
        linarith
      have hr2 : ((pyround (x / 50) * 50 : ℤ) : ℚ) - 1 < 2000 := by
        push_cast
        linarith
      rw [apply_charm_eq_of_1000_le_lt _ hr1 hr2]
      have hdiv : (((pyround (x / 50) * 50 : ℤ) : ℚ) - 1) / 50
          = (pyround (x / 50) : ℚ) - 1/50 := by
        push_cast
        ring
      rw [hdiv, pyround_eq_of_lt (pyround (x / 50)) _ (by linarith) (by linarith)]
  · have hb1 : (pyround (x / 100) : ℚ) ≤ x / 100 + 1/2 := pyround_le _
    have hb2 : x / 100 - 1/2 ≤ (pyround (x / 100) : ℚ) := le_pyround _
    have hx100 : (20 : ℚ) ≤ x / 100 := by linarith
    have hk20 : 20 ≤ pyround (x / 100) := by
      have h' : (19 : ℤ) < pyround (x / 100) := by
        have : (19 : ℚ) < (pyround (x / 100) : ℚ) := by linarith
        exact_mod_cast this
      omega
    rw [apply_charm_eq_of_2000_le x h2]
    rcases eq_or_lt_of_le hk20 with heq | hgt
    · have hval : ((pyround (x / 100) * 100 : ℤ) : ℚ) - 1 = 1999 := by
        rw [← heq]; norm_num
      rw [hval]
      norm_num [apply_charm_pricing, pyround, ratfloor_eq]
    · have hk21 : (21 : ℚ) ≤ (pyround (x / 100) : ℚ) := by exact_mod_cast hgt
      have hr1 : (2000 : ℚ) ≤ ((pyround (x / 100) * 100 : ℤ) : ℚ) - 1 := by
        push_cast
        linarith
      rw [apply_charm_eq_of_2000_le _ hr1]
      have hdiv : (((pyround (x / 100) * 100 : ℤ) : ℚ) - 1) / 100
          = (pyround (x / 100) : ℚ) - 1/100 := by
        push_cast
        ring
      rw [hdiv, pyround_eq_of_lt (pyround (x / 100)) _ (by linarith) (by linarith)]

/-- Witness for C6 at price 1234 (rounded to 1249, which is stable). -/
theorem c6_witness :
    (1000 : ℚ) ≤ 1234 ∧
    apply_charm_pricing (apply_charm_pricing 1234) = apply_charm_pricing 1234 :=
  ⟨by norm_num, c6_charm_idempotent_from_1000 1234 (by norm_num)⟩

/-! ## Claim C10 -/

/-- Claim C10, counterexample.  The two charm implementations disagree at
price 150: the inline step of `calculate_optimal_price` yields 150.99 while
the standalone `apply_charm_pricing` (which the orchestrator uses) yields
149 — so they are not equivalent. -/
theorem c10_implementations_differ_at_150 :
    inline_charm 150 = 15099/100 ∧ apply_charm_pricing 150 = 149 ∧
    (15099/100 : ℚ) ≠ 149 := by
  refine ⟨?_, ?_, by norm_num⟩
  · norm_num [inline_charm, pyint, ratfloor_eq]
  · norm_num [apply_charm_pricing, pyround, ratfloor_eq]

/-- Claim C10 (status: corrected).  Amended claim: the two implementations
are not equivalent; on the whole band `100 ≤ x < 1000` they *never* agree —
the inline step produces `⌊x⌋ + 0.99` (fractional part 0.99) while
`apply_charm_pricing` produces a whole rand amount (fractional part 0) or a
`.95` ending (fractional part 0.95). -/
theorem c10_implementations_never_agree_on_100_1000 (x : ℚ)
    (h1 : 100 ≤ x) (h2 : x < 1000) :
    inline_charm x ≠ apply_charm_pricing x := by
  have hx0 : (0 : ℚ) ≤ x := by linarith
  have hinline : inline_charm x = (⌊x⌋ : ℚ) + 99/100 := by
    unfold inline_charm
    rw [if_neg (not_lt.mpr (by linarith)), if_pos h2, pyint_of_nonneg x hx0]
  intro heq
  rw [hinline] at heq
  have hfract := congrArg Int.fract heq
  rw [Int.fract_int_add] at hfract
  have h99 : Int.fract ((99 : ℚ)/100) = 99/100 := Int.fract_eq_self.mpr (by norm_num)
  rw [h99] at hfract
  unfold apply_charm_pricing at hfract
  rw [if_neg (not_lt.mpr (by linarith : (100 : ℚ) ≤ x))] at hfract
  rcases lt_or_le x 300 with h3 | h3
  · rw [if_pos h3] at hfract
    have hcast : ((pyround (x/10) * 10 : ℤ) : ℚ) - 1
        = ((pyround (x/10) * 10 - 1 : ℤ) : ℚ) := by push_cast; ring
    rw [hcast, Int.fract_intCast] at hfract
    norm_num at hfract
  · rw [if_neg (not_lt.mpr h3)] at hfract
    rcases lt_or_le x 500 with h5 | h5
    · rw [if_pos h5] at hfract
      have hsplit : ((pyround (x/5) * 5 : ℤ) : ℚ) - 1/20
          = ((pyround (x/5) * 5 : ℤ) : ℚ) + (-(1/20)) := by ring
      rw [hsplit, Int.fract_int_add] at hfract
      have hf20 : Int.fract (-(1/20) : ℚ) = 19/20 := by
        have hfl : ⌊(-(1/20) : ℚ)⌋ = -1 := by norm_num [Int.floor_eq_iff]
        unfold Int.fract
        rw [hfl]
        norm_num
      rw [hf20] at hfract
      norm_num at hfract
    · rw [if_neg (not_lt.mpr h5), if_pos h2] at hfract
      have hcast : ((pyround (x/10) * 10 : ℤ) : ℚ) - 1
          = ((pyround (x/10) * 10 - 1 : ℤ) : ℚ) := by push_cast; ring
      rw [hcast, Int.fract_intCast] at hfract
      norm_num at hfract

/-- Witness for C10 at price 150. -/
theorem c10_witness :
    (100 : ℚ) ≤ 150 ∧ (150 : ℚ) < 1000 ∧
    inline_charm 150 ≠ apply_charm_pricing 150 :=
  ⟨by norm_num, by norm_num,
    c10_implementations_never_agree_on_100_1000 150 (by norm_num) (by norm_num)⟩

end Makro

namespace Makro

/-! ## Infrastructure for claim C1: invariants of `process_products` -/

/-- Lowercasing maps characters one-for-one, so only the empty string
lowercases to the empty string. -/
theorem toLower_ne_empty {s : String} (h : s ≠ "") : s.toLower ≠ "" := by
  intro hc
  apply h
  have h0 : s.toLower = String.map Char.toLower s := rfl
  rw [h0, String.map_eq] at hc
  have hdata := congrArg String.data hc
  have hempty : s.data = [] := by
    cases hd : s.data with
    | nil => rfl
    | cons a t =>
      rw [hd] at hdata
      simp at hdata
  cases s with
  | mk d =>
    cases hempty
    rfl

/-- `check_duplicate` only looks for a witness listing, so it is monotone in
the listing set. -/
theorem check_duplicate_true_mono {l1 l2 : List Listing} (hsub : l1 ⊆ l2)
    (t : String) (m : Option String)
    (h : check_duplicate l1 t m = true) : check_duplicate l2 t m = true := by
  unfold check_duplicate at h ⊢
  rw [List.any_eq_true] at h ⊢
  obtain ⟨l, hl, hp⟩ := h
  exact ⟨l, hsub hl, hp⟩

theorem check_duplicate_false_mono {l1 l2 : List Listing} (hsub : l1 ⊆ l2)
    (t : String) (m : Option String)
    (h : check_duplicate l2 t m = false) : check_duplicate l1 t m = false := by
  by_contra hne
  rw [Bool.not_eq_false] at hne
  rw [check_duplicate_true_mono hsub t m hne] at h
  simp at h

theorem check_duplicate_cons (l : Listing) (ls : List Listing) (t : String)
    (m : Option String) :
    check_duplicate (l :: ls) t m =
      (((l.title.toLower == t.toLower) ||
        (match m with
         | some mm => !(mm == "") && (l.model_id.toLower == mm.toLower)
         | none => false)) || check_duplicate ls t m) := rfl

/-- A listing freshly created by the pipeline (its `model_id` field absent,
read back as `""`) can only collide on the lowercased title; with a distinct
lowercased title it does not trip `check_duplicate`. -/
theorem check_dup_cons_created (qtitle : String) (ls : List Listing)
    (t : String) (m : Option String)
    (htitle : qtitle.toLower ≠ t.toLower)
    (hrest : check_duplicate ls t m = false) :
    check_duplicate (⟨qtitle, ""⟩ :: ls) t m = false := by
  rw [check_duplicate_cons, hrest, Bool.or_false]
  have h1 : (qtitle.toLower == t.toLower) = false := beq_eq_false_iff_ne.mpr htitle
  rw [h1, Bool.false_or]
  cases m with
  | none => rfl
  | some mm =>
    by_cases hmm : mm = ""
    · subst hmm
      rfl
    · have h2 : mm.toLower ≠ "" := toLower_ne_empty hmm
      have he : ("" : String).toLower = "" := by
        show String.map Char.toLower "" = ""
        rw [String.map_eq]
        rfl
      have h3 : (("" : String).toLower == mm.toLower) = false := by
        rw [he]
        exact beq_eq_false_iff_ne.mpr (Ne.symm h2)
      show (!(mm == "") && (("" : String).toLower == mm.toLower)) = false
      rw [h3]
      simp

theorem run_loop_nil (status : Product → ℕ) (s : RunState) :
    run_loop status s [] = s := rfl

theorem run_loop_cons (status : Product → ℕ) (s : RunState) (p : Product)
    (rest : List Product) :
    run_loop status s (p :: rest) =
      if MAX_PRODUCTS_PER_RUN ≤ (step status s p).created_count
      then step status s p
      else run_loop status (step status s p) rest := rfl

/-- The already-processed branch of `step`. -/
theorem step_of_mem (status : Product → ℕ) (s : RunState) (p : Product)
    (h : p.plid ∈ s.processed_plids) :
    step status s p = { s with skipped_count := s.skipped_count + 1 } := by
  unfold step
  rw [if_pos h]

/-- The create branch of `step` when the destination answers 200. -/
theorem step_of_create (status : Product → ℕ) (s : RunState) (p : Product)
    (h1 : p.plid ∉ s.processed_plids)
    (h2 : check_duplicate s.listings p.title p.plid = false)
    (h3 : status p = 200) :
    step status s p = { s with
      attempt_log := (p.plid, p.title) :: s.attempt_log
      listings := ⟨p.title, ""⟩ :: s.listings
      created_log := (p.plid, p.title,
        apply_charm_pricing (pipeline_base_price p.price)) :: s.created_log
      created_count := s.created_count + 1
      processed_plids := p.plid :: s.processed_plids } := by
  unfold step
  rw [if_neg h1, if_neg (by simp [h2]), if_pos (by rw [h3]; simp [create_listing_result])]

theorem step_processed_mono (status : Product → ℕ) (s : RunState) (p : Product) :
    s.processed_plids ⊆ (step status s p).processed_plids := by
  unfold step
  split_ifs <;> first
    | exact fun x hx => hx
    | exact fun x hx => List.mem_cons_of_mem _ hx

theorem step_processed_cases (status : Product → ℕ) (s : RunState) (p : Product) :
    (step status s p).processed_plids = s.processed_plids ∨
    (step status s p).processed_plids = p.plid :: s.processed_plids := by
  unfold step
  split_ifs
  exacts [Or.inl rfl, Or.inr rfl, Or.inr rfl, Or.inl rfl]

theorem step_listings_cases (status : Product → ℕ) (s : RunState) (p : Product) :
    (step status s p).listings = s.listings ∨
    (step status s p).listings = ⟨p.title, ""⟩ :: s.listings := by
  unfold step
  split_ifs
  exacts [Or.inl rfl, Or.inl rfl, Or.inr rfl, Or.inl rfl]

theorem step_log_mono (status : Product → ℕ) (s : RunState) (p : Product)
    (e : Option String × String × ℚ) (h : e ∈ s.created_log) :
    e ∈ (step status s p).created_log := by
  unfold step
  split_ifs <;> first
    | exact h
    | exact List.mem_cons_of_mem _ h

theorem step_count_le (status : Product → ℕ) (s : RunState) (p : Product) :
    (step status s p).created_count ≤ s.created_count + 1 := by
  unfold step
  split_ifs <;> dsimp only <;> omega

theorem step_mem_processed (status : Product → ℕ) (s : RunState) (p : Product)
    (h : status p = 200) : p.plid ∈ (step status s p).processed_plids := by
  unfold step
  split_ifs with h1 h2 h3
  · exact h1
  · exact List.mem_cons_self _ _
  · exact List.mem_cons_self _ _
  · exfalso
    apply h3
    rw [h]
    simp [create_listing_result]

theorem run_loop_processed_mono (status : Product → ℕ) :
    ∀ (P : List Product) (s : RunState),
      s.processed_plids ⊆ (run_loop status s P).processed_plids := by
  intro P
  induction P with
  | nil => intro s; exact fun x hx => hx
  | cons p rest ih =>
    intro s
    rw [run_loop_cons]
    split_ifs
    · exact step_processed_mono status s p
    · exact (step_processed_mono status s p).trans (ih _)

theorem run_loop_log_mono (status : Product → ℕ) :
    ∀ (P : List Product) (s : RunState) (e : Option String × String × ℚ),
      e ∈ s.created_log → e ∈ (run_loop status s P).created_log := by
  intro P
  induction P with
  | nil => intro s e he; exact he
  | cons p rest ih =>
    intro s e he
    rw [run_loop_cons]
    split_ifs
    · exact step_log_mono status s p e he
    · exact ih _ _ (step_log_mono status s p e he)

end Makro

namespace Makro

/-- Run invariant relative to a base state `base` (the state the pass was
started from, whose instrumentation log is empty): the engine's processed
set and the destination's listings only grow; created-log entries carry
pairwise-distinct plids; every logged plid has been marked processed; and
every logged entry was neither already processed in `base` nor a duplicate
against `base`'s listings. -/
def Inv (base s : RunState) : Prop :=
  base.processed_plids ⊆ s.processed_plids ∧
  base.listings ⊆ s.listings ∧
  (s.created_log.map (fun e => e.1)).Nodup ∧
  (∀ e ∈ s.created_log, e.1 ∈ s.processed_plids) ∧
  (∀ e ∈ s.created_log, e.1 ∉ base.processed_plids ∧
     check_duplicate base.listings e.2.1 e.1 = false)

theorem step_inv (status : Product → ℕ) (base s : RunState) (p : Product)
    (h : Inv base s) : Inv base (step status s p) := by
  obtain ⟨h1, h2, h3, h4, h5⟩ := h
  unfold step
  split_ifs with hm hd hk
  · exact ⟨h1, h2, h3, h4, h5⟩
  · exact ⟨fun x hx => List.mem_cons_of_mem _ (h1 hx), h2, h3,
      fun e he => List.mem_cons_of_mem _ (h4 e he), h5⟩
  · refine ⟨fun x hx => List.mem_cons_of_mem _ (h1 hx),
      fun x hx => List.mem_cons_of_mem _ (h2 hx), ?_, ?_, ?_⟩
    · rw [List.map_cons]
      rw [List.nodup_cons]
      refine ⟨?_, h3⟩
      intro hmem
      rw [List.mem_map] at hmem
      obtain ⟨e, he, hfe⟩ := hmem
      have hq : e.1 = p.plid := by simpa using hfe
      exact hm (hq ▸ h4 e he)
    · intro e he
      rcases List.mem_cons.mp he with rfl | he'
      · exact List.mem_cons_self _ _
      · exact List.mem_cons_of_mem _ (h4 e he')
    · intro e he
      rcases List.mem_cons.mp he with rfl | he'
      · constructor
        · intro hbase
          exact hm (h1 hbase)
        · have hdup_false : check_duplicate s.listings p.title p.plid = false := by
            simpa using hd
          exact check_duplicate_false_mono h2 _ _ hdup_false
      · exact h5 e he'
  · exact ⟨h1, h2, h3, h4, h5⟩

theorem run_loop_inv (status : Product → ℕ) :
    ∀ (P : List Product) (base s : RunState),
      Inv base s → Inv base (run_loop status s P) := by
  intro P
  induction P with
  | nil => intro base s h; exact h
  | cons p rest ih =>
    intro base s h
    rw [run_loop_cons]
    split_ifs
    · exact step_inv status base s p h
    · exact ih base _ (step_inv status base s p h)

theorem inv_init (s0 : RunState) (hlog : s0.created_log = []) :
    Inv s0 { s0 with created_count := 0, skipped_count := 0 } := by
  refine ⟨fun x hx => hx, fun x hx => hx, ?_, ?_, ?_⟩
  · show (s0.created_log.map (fun e => e.1)).Nodup
    rw [hlog]
    exact List.nodup_nil
  · show ∀ e ∈ s0.created_log, _
    rw [hlog]
    intro e he
    cases he
  · show ∀ e ∈ s0.created_log, _
    rw [hlog]
    intro e he
    cases he

/-- When every create call is answered 200 and the product list fits in the
per-run cap, every listed product's plid ends up in `processed_plids`. -/
theorem run_loop_all_processed (status : Product → ℕ) :
    ∀ (P : List Product) (s : RunState),
      (∀ p ∈ P, status p = 200) →
      s.created_count + P.length ≤ MAX_PRODUCTS_PER_RUN →
      ∀ p ∈ P, p.plid ∈ (run_loop status s P).processed_plids := by
  intro P
  induction P with
  | nil =>
    intro s _ _ p hp
    cases hp
  | cons q rest ih =>
    intro s hst hcount p hp
    have hq200 := hst q (List.mem_cons_self q rest)
    have hcount1 := step_count_le status s q
    rw [List.length_cons] at hcount
    rw [run_loop_cons]
    split_ifs with hbreak
    · have hrest : rest = [] := by
        rw [List.length_eq_zero.symm]
        omega
      subst hrest
      have hpq : p = q := by simpa using hp
      subst hpq
      exact step_mem_processed status s p hq200
    · rcases List.mem_cons.mp hp with rfl | hp'
      · exact run_loop_processed_mono status rest _
          (step_mem_processed status s p hq200)
      · exact ih (step status s q)
          (fun r hr => hst r (List.mem_cons_of_mem _ hr))
          (by omega) p hp'

/-- When every product's plid is already processed, a pass neither creates
nor even attempts anything. -/
theorem run_loop_skips (status : Product → ℕ) :
    ∀ (P : List Product) (s : RunState),
      (∀ p ∈ P, p.plid ∈ s.processed_plids) →
      (run_loop status s P).created_log = s.created_log ∧
      (run_loop status s P).attempt_log = s.attempt_log := by
  intro P
  induction P with
  | nil => intro s _; exact ⟨rfl, rfl⟩
  | cons q rest ih =>
    intro s hall
    rw [run_loop_cons, step_of_mem status s q (hall q (List.mem_cons_self _ _))]
    split_ifs
    · exact ⟨rfl, rfl⟩
    · exact ih _ (fun p hp => hall p (List.mem_cons_of_mem _ hp))

/-- An eligible product (not yet processed, no duplicate on the destination)
whose plid and lowercased title are shared by no other product of the list
does get its listing created during the pass. -/
theorem run_loop_creates (status : Product → ℕ) (p : Product)
    (hsp : status p = 200) :
    ∀ (P : List Product) (s : RunState),
      p ∈ P →
      p.plid ∉ s.processed_plids →
      check_duplicate s.listings p.title p.plid = false →
      s.created_count + P.length ≤ MAX_PRODUCTS_PER_RUN →
      (∀ q ∈ P, q ≠ p → q.plid ≠ p.plid ∧ q.title.toLower ≠ p.title.toLower) →
      (p.plid, p.title, apply_charm_pricing (pipeline_base_price p.price))
        ∈ (run_loop status s P).created_log := by
  intro P
  induction P with
  | nil =>
    intro s hp
    cases hp
  | cons q rest ih =>
    intro s hp hmem hdup hcount hne
    rw [List.length_cons] at hcount
    by_cases hq : q = p
    · subst hq
      have hstep := step_of_create status s q hmem hdup hsp
      have hentry : (q.plid, q.title,
          apply_charm_pricing (pipeline_base_price q.price))
            ∈ (step status s q).created_log := by
        rw [hstep]
        exact List.mem_cons_self _ _
      rw [run_loop_cons]
      split_ifs
      · exact hentry
      · exact run_loop_log_mono status rest _ _ hentry
    · have hp' : p ∈ rest := by
        rcases List.mem_cons.mp hp with h | h
        · exact absurd h.symm hq
        · exact h
      have hqP := hne q (List.mem_cons_self _ _) hq
      have hmem' : p.plid ∉ (step status s q).processed_plids := by
        rcases step_processed_cases status s q with hcase | hcase
        · rw [hcase]; exact hmem
        · rw [hcase]
          intro hin
          rcases List.mem_cons.mp hin with heq | hin'
          · exact hqP.1 heq.symm
          · exact hmem hin'
      have hdup' : check_duplicate (step status s q).listings p.title p.plid
          = false := by
        rcases step_listings_cases status s q with hcase | hcase
        · rw [hcase]; exact hdup
        · rw [hcase]
          exact check_dup_cons_created q.title s.listings p.title p.plid
            hqP.2 hdup
      have hcount1 := step_count_le status s q
      rw [run_loop_cons]
      split_ifs with hbreak
      · exfalso
        have hrest : rest = [] := by
          rw [List.length_eq_zero.symm]
          omega
        subst hrest
        cases hp'
      · exact ih (step status s q) hp' hmem' hdup' (by omega)
          (fun r hr hrp => hne r (List.mem_cons_of_mem _ hr) hrp)

end Makro

namespace Makro

/-! ## Claim C1 -/

/-- Claim C1 (status: confirmed).  Running `process_products` twice on an
unchanged product list against an unchanged destination (the create oracle
`status` is fixed and answers 200, the list fits the per-run cap, plids and
lowercased titles are pairwise distinct as scraped lists are) yields exactly
one created listing per eligible plid, not two:  the second pass creates
nothing and does not even call `create_listing` (its logs are unchanged);
the created plids of the first pass are pairwise distinct; every product
whose plid was already processed or whose title/plid trips `check_duplicate`
against the initial destination listings is skipped, never created; and
every eligible product is created exactly once, with its charm-rounded
floor-rule price. -/
theorem c1_rerun_creates_no_duplicates (status : Product → ℕ)
    (P : List Product) (s0 : RunState)
    (hlen : P.length ≤ MAX_PRODUCTS_PER_RUN)
    (hst : ∀ p ∈ P, status p = 200)
    (hlog : s0.created_log = [])
    (hplids : (P.map (fun p => p.plid)).Nodup)
    (htitles : (P.map (fun p => p.title.toLower)).Nodup) :
    (process_products status P (process_products status P s0)).created_log
        = (process_products status P s0).created_log ∧
    (process_products status P (process_products status P s0)).attempt_log
        = (process_products status P s0).attempt_log ∧
    ((process_products status P s0).created_log.map (fun e => e.1)).Nodup ∧
    (∀ p ∈ P,
      (p.plid ∈ s0.processed_plids ∨
        check_duplicate s0.listings p.title p.plid = true) →
      ∀ pr, (p.plid, p.title, pr)
        ∉ (process_products status P s0).created_log) ∧
    (∀ p ∈ P, p.plid ∉ s0.processed_plids →
      check_duplicate s0.listings p.title p.plid = false →
      (p.plid, p.title, apply_charm_pricing (pipeline_base_price p.price))
        ∈ (process_products status P s0).created_log) := by
  have hInv : Inv s0 (process_products status P s0) :=
    run_loop_inv status P s0 _ (inv_init s0 hlog)
  have hall : ∀ p ∈ P, p.plid ∈ (process_products status P s0).processed_plids :=
    run_loop_all_processed status P
      { s0 with created_count := 0, skipped_count := 0 } hst
      (by simpa using hlen)
  have hskip := run_loop_skips status P
    { process_products status P s0 with created_count := 0, skipped_count := 0 }
    (fun p hp => hall p hp)
  refine ⟨hskip.1, hskip.2, hInv.2.2.1, ?_, ?_⟩
  · intro p hp hbad pr hin
    obtain ⟨hnb, hnd⟩ := hInv.2.2.2.2 _ hin
    rcases hbad with hb | hb
    · exact hnb hb
    · have hnd' : check_duplicate s0.listings p.title p.plid = false := hnd
      rw [hb] at hnd'
      simp at hnd'
  · intro p hp hm hd
    have hinjp := List.inj_on_of_nodup_map hplids
    have hinjt := List.inj_on_of_nodup_map htitles
    apply run_loop_creates status p (hst p hp) P
      { s0 with created_count := 0, skipped_count := 0 } hp hm hd
      (by simpa using hlen)
    intro q hq hqp
    exact ⟨fun heq => hqp (hinjp hq hp heq), fun heq => hqp (hinjt hq hp heq)⟩

/-- Witness for C1: two passes over the one-product list from an empty
state; the second pass changes neither the created-listing log nor the
create-call log, and the created plids are distinct. -/
theorem c1_witness :
    (process_products (fun _ => 200) [sample150]
        (process_products (fun _ => 200) [sample150] state0)).created_log
      = (process_products (fun _ => 200) [sample150] state0).created_log ∧
    (process_products (fun _ => 200) [sample150]
        (process_products (fun _ => 200) [sample150] state0)).attempt_log
      = (process_products (fun _ => 200) [sample150] state0).attempt_log ∧
    ((process_products (fun _ => 200) [sample150] state0).created_log.map
        (fun e => e.1)).Nodup := by
  obtain ⟨h1, h2, h3, _, _⟩ :=
    c1_rerun_creates_no_duplicates (fun _ => 200) [sample150] state0
      (by decide) (fun p _ => rfl) rfl (by simp) (by simp)
  exact ⟨h1, h2, h3⟩

end Makro
